import Mathlib

/-!
Verification development for the Solana RPC checker (src/main.rs).

The program issues a fixed battery of RPC probes against an endpoint,
collects one `TestResult` per probe invocation, and aggregates them into a
performance report.  Network calls are external collaborators: each probe is
embedded as a pure function of the call's outcome (the success value or the
error string that `e.to_string()` would produce) and of the elapsed wall
clock in whole milliseconds.  Rust `u128` millisecond durations are embedded
as `Nat`; the single place where the code manufactures a `u128` constant
(`u128::MAX` as a sort sentinel) is embedded as `U128_MAX = 2 ^ 128 - 1`.
-/

/-- Embedding of `struct TestResult` (main.rs lines 44-49): one record per
probe invocation. -/
structure TestResult where
  name : String
  success : Bool
  duration_ms : Nat
  error : Option String
deriving DecidableEq, Repr

/-- Embedding of `get_speed_rating` (main.rs lines 289-297): closed integer
ranges `0..=100`, `101..=300`, `301..=600`, `601..=1000`, catch-all.  Returns
the label and the colour name exactly as the source does. -/
def get_speed_rating (duration_ms : Nat) : String × String :=
  if duration_ms ≤ 100 then ("Excellent", "bright_green")
  else if duration_ms ≤ 300 then ("Good", "green")
  else if duration_ms ≤ 600 then ("Average", "yellow")
  else if duration_ms ≤ 1000 then ("Slow", "yellow")
  else ("Very Slow", "red")

/-- Embedding of `test_get_latest_blockhash` (main.rs lines 51-70).
`call` is the result of `client.get_latest_blockhash()` (errors as their
display strings); `d` is the elapsed milliseconds of that call. -/
def test_get_latest_blockhash (call : Except String Unit) (d : Nat) :
    Except String TestResult :=
  match call with
  | .ok _ => .ok ⟨"getLatestBlockhash", true, d, none⟩
  | .error e => .ok ⟨"getLatestBlockhash", false, d, some e⟩

/-- Embedding of `test_get_slot` (main.rs lines 72-91). -/
def test_get_slot (call : Except String Unit) (d : Nat) :
    Except String TestResult :=
  match call with
  | .ok _ => .ok ⟨"getSlot", true, d, none⟩
  | .error e => .ok ⟨"getSlot", false, d, some e⟩

/-- Embedding of `test_get_balance` (main.rs lines 93-115). -/
def test_get_balance (call : Except String Unit) (d : Nat) :
    Except String TestResult :=
  match call with
  | .ok _ => .ok ⟨"getBalance", true, d, none⟩
  | .error e => .ok ⟨"getBalance", false, d, some e⟩

/-- Embedding of `test_get_account_info` (main.rs lines 117-139). -/
def test_get_account_info (call : Except String Unit) (d : Nat) :
    Except String TestResult :=
  match call with
  | .ok _ => .ok ⟨"getAccountInfo", true, d, none⟩
  | .error e => .ok ⟨"getAccountInfo", false, d, some e⟩

/-- Embedding of `test_get_token_accounts_by_owner` (main.rs lines 187-213). -/
def test_get_token_accounts_by_owner (call : Except String Unit) (d : Nat) :
    Except String TestResult :=
  match call with
  | .ok _ => .ok ⟨"getTokenAccountsByOwner", true, d, none⟩
  | .error e => .ok ⟨"getTokenAccountsByOwner", false, d, some e⟩

/-- Embedding of `test_get_block` (main.rs lines 141-185).  `slotCall` is the
result of the preliminary `client.get_slot()`; `blockCall s` is the result of
`client.get_block_with_config(s, config)`; `d` is the elapsed time of that
second call only (the source starts its `Instant` after the slot fetch).
Rust's `saturating_sub` is Lean's truncated `Nat` subtraction. -/
def test_get_block (slotCall : Except String Nat)
    (blockCall : Nat → Except String Unit) (d : Nat) :
    Except String TestResult :=
  match slotCall with
  | .error e => .ok ⟨"getBlock", false, 0, some ("Failed to get slot: " ++ e)⟩
  | .ok current_slot =>
    let slot := current_slot - 10
    match blockCall slot with
    | .ok _ => .ok ⟨"getBlock", true, d, none⟩
    | .error e => .ok ⟨"getBlock", false, d, some e⟩

/-- Embedding of `serde_json::Value` for the health probe's payload. -/
inductive JValue where
  | jnull : JValue
  | jbool : Bool → JValue
  | jnum : Int → JValue
  | jstr : String → JValue
  | jarr : List JValue → JValue
  | jobj : List (String × JValue) → JValue

/-- Embedding of `serde_json::Value`'s `Index<&str>`: indexing an object
returns the field's value or `Null`; indexing any other value returns
`Null`. -/
def jIndex (v : JValue) (key : String) : JValue :=
  match v with
  | .jobj fields =>
    match fields.find? (fun p => p.1 == key) with
    | some p => p.2
    | none => .jnull
  | _ => .jnull

/-- Embedding of `json["result"] == "ok"`: `serde_json::Value`'s
`PartialEq<str>` holds exactly when the value is the string `"ok"`. -/
def isStrOk : JValue → Bool
  | .jstr s => s == "ok"
  | _ => false

mutual

/-- Rendering standing in for Rust's `format!("{:?}", json)` on a
`serde_json::Value` (debug formatting used in the health probe's error
message). -/
def jShow : JValue → String
  | .jnull => "Null"
  | .jbool b => "Bool(" ++ toString b ++ ")"
  | .jnum n => "Number(" ++ toString n ++ ")"
  | .jstr s => "String(\"" ++ s ++ "\")"
  | .jarr xs => "Array [" ++ jShowList xs ++ "]"
  | .jobj fs => "Object \x7b" ++ jShowFields fs ++ "\x7d"

/-- Comma-separated rendering of array elements for `jShow`. -/
def jShowList : List JValue → String
  | [] => ""
  | [x] => jShow x
  | x :: xs => jShow x ++ ", " ++ jShowList xs

/-- Comma-separated rendering of object fields for `jShow`. -/
def jShowFields : List (String × JValue) → String
  | [] => ""
  | [(k, v)] => "\"" ++ k ++ "\": " ++ jShow v
  | (k, v) :: fs => "\"" ++ k ++ "\": " ++ jShow v ++ ", " ++ jShowFields fs

end

/-- Embedding of `test_get_health` (main.rs lines 215-257).  `response` is
the result of the bare `reqwest` POST: a transport error string, or a
response whose body parse (`resp.json().await`) either fails with an error
string or yields a `JValue`.  `d` is the elapsed time of the POST (measured
before the body is parsed).  Note the source applies `?` to the body parse,
so a parse failure propagates as `Except.error` instead of producing a
`TestResult`. -/
def test_get_health (response : Except String (Except String JValue))
    (d : Nat) : Except String TestResult :=
  match response with
  | .error e => .ok ⟨"getHealth", false, d, some e⟩
  | .ok parse =>
    match parse with
    | .error e => .error e
    | .ok json =>
      if isStrOk (jIndex json "result") then
        .ok ⟨"getHealth", true, d, none⟩
      else
        .ok ⟨"getHealth", false, d, some ("Unexpected response: " ++ jShow json)⟩

/-- Embedding of `run_test` (main.rs lines 259-287), the Runner used on both
with-progress-bar paths.  `test_fn i` is the result of the probe's `i`-th
invocation; an `Err` from the probe is converted to a failed `TestResult`
with duration `0` and the probe's name.  Progress-bar messages, ticks and
the 100 ms inter-iteration sleep are presentation/pacing side effects with
no bearing on the collected list. -/
def run_test (test_fn : Nat → Except String TestResult) (iterations : Nat)
    (test_name : String) : List TestResult :=
  (List.range iterations).map fun i =>
    match test_fn i with
    | .ok result => result
    | .error e => ⟨test_name, false, 0, some e⟩

/-- Embedding of the per-probe iteration loop of the no-progress paths
(main.rs lines 603-616 inside the spawned task, and the identical inline
loop at lines 652-665 in sequential mode). -/
def run_test_noPB (test_fn : Nat → Except String TestResult)
    (iterations : Nat) (test_name : String) : List TestResult :=
  (List.range iterations).map fun i =>
    match test_fn i with
    | .ok result => result
    | .error e => ⟨test_name, false, 0, some e⟩

/-- Embedding of the getHealth iteration loop on the with-progress-bar paths
(main.rs lines 529-546 in parallel mode and lines 572-586 in sequential
mode; the two loops are identical). -/
def health_loop (healthCall : Nat → Except String TestResult)
    (iterations : Nat) : List TestResult :=
  (List.range iterations).map fun i =>
    match healthCall i with
    | .ok result => result
    | .error e => ⟨"getHealth", false, 0, some e⟩

/-- Embedding of the getHealth iteration loop on the no-progress paths
(main.rs lines 623-638 in parallel mode and lines 668-681 in sequential
mode; the two loops are identical). -/
def health_loop_noPB (healthCall : Nat → Except String TestResult)
    (iterations : Nat) : List TestResult :=
  (List.range iterations).map fun i =>
    match healthCall i with
    | .ok result => result
    | .error e => ⟨"getHealth", false, 0, some e⟩

/-- Embedding of the probe registry `tests` (main.rs lines 481-488): the six
RPC-client probes in registration order; getHealth is dispatched separately. -/
def tests : List String :=
  ["getLatestBlockhash", "getSlot", "getBalance", "getAccountInfo",
   "getBlock", "getTokenAccountsByOwner"]

/-- Tagging of the spawned units with their join fate.  In parallel mode the
source `tokio::spawn`s one task per unit and `join_all` yields, per task,
either the task's `Vec<TestResult>` or a `JoinError` if the task terminated
abnormally.  `crash u` is the abnormal-termination fate of unit number `u`
(`none` = the unit returned normally), an environment input. -/
def withCrashes (crash : Nat → Option String) :
    Nat → List (List TestResult) → List (Except String (List TestResult))
  | _, [] => []
  | u, rs :: rest =>
    (match crash u with
     | some e => .error e
     | none => .ok rs) :: withCrashes crash (u + 1) rest

/-- Embedding of the join-point collection loop (main.rs lines 552-557 and
identically lines 644-649): an `Ok` task extends `all_results`; an `Err`
(crashed task) is only reported via `eprintln!` and contributes nothing. -/
def collectJoined : List (Except String (List TestResult)) → List TestResult
  | [] => []
  | .ok rs :: rest => rs ++ collectJoined rest
  | .error _ :: rest => collectJoined rest

/-- The unit batteries spawned in parallel mode with the progress bar
(main.rs lines 504-546): one `run_test` task per registry entry, then the
getHealth task. -/
def parallel_units (calls : String → Nat → Except String TestResult)
    (healthCall : Nat → Except String TestResult) (iterations : Nat) :
    List (List TestResult) :=
  tests.map (fun test_name => run_test (calls test_name) iterations test_name)
    ++ [health_loop healthCall iterations]

/-- The unit batteries spawned in parallel mode without the progress bar
(main.rs lines 596-638). -/
def parallel_units_noPB (calls : String → Nat → Except String TestResult)
    (healthCall : Nat → Except String TestResult) (iterations : Nat) :
    List (List TestResult) :=
  tests.map
      (fun test_name => run_test_noPB (calls test_name) iterations test_name)
    ++ [health_loop_noPB healthCall iterations]

/-- `all_results` at the end of the with-progress parallel branch
(main.rs lines 504-557): spawn, join, collect. -/
def session_parallel (calls : String → Nat → Except String TestResult)
    (healthCall : Nat → Except String TestResult) (iterations : Nat)
    (crash : Nat → Option String) : List TestResult :=
  collectJoined (withCrashes crash 0 (parallel_units calls healthCall iterations))

/-- `all_results` at the end of the no-progress parallel branch
(main.rs lines 594-649). -/
def session_parallel_noPB (calls : String → Nat → Except String TestResult)
    (healthCall : Nat → Except String TestResult) (iterations : Nat)
    (crash : Nat → Option String) : List TestResult :=
  collectJoined
    (withCrashes crash 0 (parallel_units_noPB calls healthCall iterations))

/-- `all_results` at the end of the with-progress sequential branch
(main.rs lines 558-586): each registry probe's battery in order, then the
getHealth battery. -/
def session_sequential (calls : String → Nat → Except String TestResult)
    (healthCall : Nat → Except String TestResult) (iterations : Nat) :
    List TestResult :=
  (tests.map fun test_name =>
      run_test (calls test_name) iterations test_name).flatten
    ++ health_loop healthCall iterations

/-- `all_results` at the end of the no-progress sequential branch
(main.rs lines 650-681). -/
def session_sequential_noPB (calls : String → Nat → Except String TestResult)
    (healthCall : Nat → Except String TestResult) (iterations : Nat) :
    List TestResult :=
  (tests.map fun test_name =>
      run_test_noPB (calls test_name) iterations test_name).flatten
    ++ health_loop_noPB healthCall iterations

/-- The value of `u128::MAX`, used by the ranking comparator (main.rs lines
354 and 359) as the sort key of a probe with no succeeded outcome. -/
def U128_MAX : Nat := 2 ^ 128 - 1

/-- `successful_tests` of `print_test_summary` (main.rs line 316):
`results.iter().filter(|r| r.success).count()`.  The same expression computes
`success_count` per group at line 365. -/
def successful_tests (results : List TestResult) : Nat :=
  (results.filter (fun r => r.success)).length

/-- The succeeded durations pool
`results.iter().filter(|r| r.success).map(|r| r.duration_ms)` used by the
sum, min and max reductions of `print_test_summary`. -/
def succeeded_durations (results : List TestResult) : List Nat :=
  (results.filter (fun r => r.success)).map (fun r => r.duration_ms)

/-- `overall_avg_duration` of `print_test_summary` (main.rs lines 319-323):
integer (`u128`) division of the summed succeeded durations by the success
count, or `0` when nothing succeeded.  The per-group `avg_duration` at lines
369-373 and the ranking comparator's averages at lines 351-359 use the same
expression, so this one definition also serves for groups. -/
def overall_avg_duration (results : List TestResult) : Nat :=
  if successful_tests results > 0 then
    (succeeded_durations results).sum / successful_tests results
  else 0

/-- `overall_success_rate` of `print_test_summary` (main.rs line 317),
embedded in `ℚ`: the `f64` value is a fixed function of the two counts, and
the claims about it only compare it across sessions with equal counts. -/
def overall_success_rate (results : List TestResult) : ℚ :=
  (successful_tests results : ℚ) / (results.length : ℚ) * 100

/-- The overall speed rating of `print_test_summary` (main.rs line 326):
`get_speed_rating(overall_avg_duration)`. -/
def overall_speed_rating (results : List TestResult) : String × String :=
  get_speed_rating (overall_avg_duration results)

/-- The grouping of `print_test_summary` (main.rs lines 306-312): a
`HashMap<String, Vec<&TestResult>>` keyed by `name`, each bucket holding that
probe's outcomes in session order.  A `HashMap`'s iteration order is
arbitrary (randomly seeded), so only the key set and the per-key buckets are
determined; this embedding lists the buckets in `dedup` order of the names as
one admissible arrangement, and every order-sensitive theorem below either
quantifies over arrangements or treats the arrangement as an input. -/
def grouped_results (results : List TestResult) :
    List (String × List TestResult) :=
  ((results.map (fun r => r.name)).dedup).map
    (fun n => (n, results.filter (fun r => r.name == n)))

/-- The ranking comparator's key (main.rs lines 351-359): the group's average
succeeded duration, or `u128::MAX` when the group is empty or has no
succeeded outcome. -/
def sort_key (g : List TestResult) : Nat :=
  if !g.isEmpty && g.any (fun r => r.success) then
    (succeeded_durations g).sum / (g.filter (fun r => r.success)).length
  else U128_MAX

/-- The ranking of `print_test_summary` (main.rs lines 349-362):
`sorted_tests.sort_by` with `a_avg.cmp(&b_avg)`.  Rust's `sort_by` is a
stable sort; Mathlib's `insertionSort` is also stable, so both produce the
same list from the same arrangement of groups. -/
def sorted_tests (groups : List (String × List TestResult)) :
    List (String × List TestResult) :=
  groups.insertionSort (fun a b => sort_key a.2 ≤ sort_key b.2)

/-- The per-probe statistics printed by `print_test_summary`
(main.rs lines 364-420). -/
structure ProbeSummary where
  name : String
  total : Nat
  success_count : Nat
  success_rate : ℚ
  avg_duration : Nat
  min_duration : Nat
  max_duration : Nat
  rating : String
deriving DecidableEq

/-- The per-probe statistics block of `print_test_summary` (main.rs lines
364-399) for one group: success count and rate, average / min / max over the
succeeded outcomes (`min()`/`max()` with `unwrap_or(0)`), and the speed
rating of the average. -/
def probe_summary (name : String) (g : List TestResult) : ProbeSummary :=
  let success_count := (g.filter (fun r => r.success)).length
  let total_count := g.length
  let avg : Nat :=
    if success_count > 0 then (succeeded_durations g).sum / success_count
    else 0
  { name := name
    total := total_count
    success_count := success_count
    success_rate := (success_count : ℚ) / (total_count : ℚ) * 100
    avg_duration := avg
    min_duration := (succeeded_durations g).min?.getD 0
    max_duration := (succeeded_durations g).max?.getD 0
    rating := (get_speed_rating avg).1 }

/-- The ranked report body (main.rs lines 349-430): the groups sorted by the
ranking comparator, each rendered through its per-probe statistics. -/
def ranked_summaries (results : List TestResult) : List ProbeSummary :=
  (sorted_tests (grouped_results results)).map
    (fun p => probe_summary p.1 p.2)

theorem run_test_length (tf : Nat → Except String TestResult) (n : Nat)
    (nm : String) : (run_test tf n nm).length = n := by
  simp [run_test]

theorem health_loop_length (hc : Nat → Except String TestResult) (n : Nat) :
    (health_loop hc n).length = n := by
  simp [health_loop]

/-- C3: the speed-rating classifier maps closed, inclusive, non-overlapping
bands: `0..=100` to Excellent, `101..=300` to Good, `301..=600` to Average,
`601..=1000` to Slow, `1001..` to Very Slow; the boundary inputs 100, 101,
1000, 1001 land as claimed; and the per-probe and overall ratings are the
same classifier applied to the respective averages. -/
theorem C3_speed_rating_bands (d : Nat) (results : List TestResult)
    (nm : String) (g : List TestResult) :
    ((d ≤ 100) ↔ (get_speed_rating d).1 = "Excellent")
    ∧ ((101 ≤ d ∧ d ≤ 300) ↔ (get_speed_rating d).1 = "Good")
    ∧ ((301 ≤ d ∧ d ≤ 600) ↔ (get_speed_rating d).1 = "Average")
    ∧ ((601 ≤ d ∧ d ≤ 1000) ↔ (get_speed_rating d).1 = "Slow")
    ∧ ((1001 ≤ d) ↔ (get_speed_rating d).1 = "Very Slow")
    ∧ (get_speed_rating 100).1 = "Excellent"
    ∧ (get_speed_rating 101).1 = "Good"
    ∧ (get_speed_rating 1000).1 = "Slow"
    ∧ (get_speed_rating 1001).1 = "Very Slow"
    ∧ overall_speed_rating results = get_speed_rating (overall_avg_duration results)
    ∧ (probe_summary nm g).rating
        = (get_speed_rating ((probe_summary nm g).avg_duration)).1 := by
  refine ⟨?_, ?_, ?_, ?_, ?_, by decide, by decide, by decide, by decide, rfl, rfl⟩
  all_goals
    unfold get_speed_rating
    split_ifs <;> simp_all <;> omega

/-- C6 counterexample: when the preliminary slot fetch fails, the block probe
does return a failed outcome with duration 0 and without attempting the
block fetch, but its error message is `"Failed to get slot: <e>"`, not the
claimed literal `"failed to resolve slot"`. -/
theorem C6_counterexample :
    test_get_block (Except.error "connection refused") (fun _ => Except.ok ()) 7
      = Except.ok ⟨"getBlock", false, 0, some "Failed to get slot: connection refused"⟩
    ∧ "Failed to get slot: connection refused" ≠ "failed to resolve slot" := by
  exact ⟨rfl, by decide⟩

/-- C6 (amended): if the preliminary slot fetch fails with error `e`, the
block probe returns a failed outcome with duration exactly 0 and the
distinguishing message `"Failed to get slot: " ++ e` without attempting the
block fetch; if the slot fetch succeeds with slot `s`, the probe fetches the
block at `s - 10` clamped at zero (so at slot 0 whenever `s ≤ 10`), and the
recorded duration is the elapsed time `d` of that second call only. -/
theorem C6_block_probe (e : String) (s s2 d : Nat)
    (blockCall : Nat → Except String Unit) (hs2 : s2 ≤ 10) :
    test_get_block (Except.error e) blockCall d
      = Except.ok ⟨"getBlock", false, 0, some ("Failed to get slot: " ++ e)⟩
    ∧ (test_get_block (Except.ok s) blockCall d).map (fun r => r.duration_ms)
      = Except.ok d
    ∧ (test_get_block (Except.ok s) blockCall d).map (fun r => r.success)
      = Except.ok (blockCall (s - 10)).toOption.isSome
    ∧ (test_get_block (Except.ok s2) blockCall d).map (fun r => r.success)
      = Except.ok (blockCall 0).toOption.isSome := by
  refine ⟨rfl, ?_, ?_, ?_⟩
  · cases h : blockCall (s - 10) <;> simp [test_get_block, h, Except.map]
  · cases h : blockCall (s - 10) <;> simp [test_get_block, h, Except.map, Except.toOption]
  · have h0 : s2 - 10 = 0 := by omega
    cases h : blockCall 0 <;>
      simp [test_get_block, h0, h, Except.map, Except.toOption]

theorem C6_block_probe_witness :
    (3 : Nat) ≤ 10
    ∧ (test_get_block (Except.ok 3) (fun _ => Except.ok ()) 5).map
        (fun r => r.success) = Except.ok true :=
  ⟨by decide, (C6_block_probe "boom" 42 3 5 (fun _ => Except.ok ()) (by decide)).2.2.2⟩

/-- C4: with at least one succeeded outcome, the overall average duration is
the floor of the flat mean of all succeeded durations pooled across the whole
session (first two conjuncts: the floor-characterising bounds); with zero
succeeded outcomes it is 0 rather than a division by zero; and it is not the
mean of the per-probe averages: on the session with getSlot durations
[100, 100] and getBalance duration [400] the pooled value is 200 while the
mean of the two per-probe averages is 250. -/
theorem C4_overall_average_flat_mean (results : List TestResult)
    (h : 0 < successful_tests results) :
    overall_avg_duration results * successful_tests results
        ≤ (succeeded_durations results).sum
    ∧ (succeeded_durations results).sum
        < (overall_avg_duration results + 1) * successful_tests results
    ∧ overall_avg_duration [⟨"getHealth", false, 50, some "err"⟩] = 0
    ∧ overall_avg_duration
        [⟨"getSlot", true, 100, none⟩, ⟨"getSlot", true, 100, none⟩,
         ⟨"getBalance", true, 400, none⟩] = 200
    ∧ ((probe_summary "getSlot"
          ([⟨"getSlot", true, 100, none⟩, ⟨"getSlot", true, 100, none⟩,
            ⟨"getBalance", true, 400, none⟩].filter
              (fun r => r.name == "getSlot"))).avg_duration
        + (probe_summary "getBalance"
          ([⟨"getSlot", true, 100, none⟩, ⟨"getSlot", true, 100, none⟩,
            ⟨"getBalance", true, 400, none⟩].filter
              (fun r => r.name == "getBalance"))).avg_duration) / 2 = 250
    ∧ (200 : Nat) ≠ 250 := by
  have havg : overall_avg_duration results
      = (succeeded_durations results).sum / successful_tests results := by
    simp [overall_avg_duration, h]
  refine ⟨?_, ?_, by decide, by decide, by decide, by decide⟩
  · rw [havg]
    exact Nat.div_mul_le_self _ _
  · rw [havg, Nat.add_mul, Nat.one_mul, Nat.mul_comm]
    have := Nat.lt_mul_div_succ (succeeded_durations results).sum h
    rw [Nat.mul_add, Nat.mul_one] at this
    exact this

theorem C4_overall_average_flat_mean_witness :
    0 < successful_tests [⟨"getSlot", true, 100, none⟩]
    ∧ overall_avg_duration [⟨"getSlot", true, 100, none⟩]
        * successful_tests [⟨"getSlot", true, 100, none⟩]
      ≤ (succeeded_durations [⟨"getSlot", true, 100, none⟩]).sum :=
  ⟨by decide, (C4_overall_average_flat_mean _ (by decide)).1⟩

/-- C10: every reported average is computed by integer floor division of the
summed succeeded whole-millisecond durations by the success count (first two
conjuncts: floor bounds for the per-probe average), the ranking comparator
uses the very same floored value as its key, and the speed band is applied
after flooring: succeeded durations [100, 101] give average 100 and rating
"Excellent", not "Good". -/
theorem C10_integer_floor_averages (nm : String) (g : List TestResult)
    (h : 0 < (g.filter (fun r => r.success)).length) :
    (probe_summary nm g).avg_duration * (g.filter (fun r => r.success)).length
        ≤ (succeeded_durations g).sum
    ∧ (succeeded_durations g).sum
        < ((probe_summary nm g).avg_duration + 1)
            * (g.filter (fun r => r.success)).length
    ∧ sort_key g = (probe_summary nm g).avg_duration
    ∧ (probe_summary "getSlot"
        [⟨"getSlot", true, 100, none⟩, ⟨"getSlot", true, 101, none⟩]).avg_duration
      = 100
    ∧ (probe_summary "getSlot"
        [⟨"getSlot", true, 100, none⟩, ⟨"getSlot", true, 101, none⟩]).rating
      = "Excellent"
    ∧ overall_avg_duration
        [⟨"getSlot", true, 100, none⟩, ⟨"getSlot", true, 101, none⟩] = 100
    ∧ "Excellent" ≠ "Good" := by
  have hne : g.filter (fun r => r.success) ≠ [] := by
    intro hnil
    rw [hnil] at h
    simp at h
  obtain ⟨r, hr⟩ := List.exists_mem_of_ne_nil _ hne
  have hrg : r ∈ g := List.mem_of_mem_filter hr
  have hrs : r.success = true := by simpa using List.of_mem_filter hr
  have hgne : g.isEmpty = false := by
    cases g with
    | nil => cases hrg
    | cons a l => rfl
  have hany : g.any (fun r => r.success) = true :=
    List.any_eq_true.mpr ⟨r, hrg, hrs⟩
  have havg : (probe_summary nm g).avg_duration
      = (succeeded_durations g).sum / (g.filter (fun r => r.success)).length := by
    simp [probe_summary, h]
  refine ⟨?_, ?_, ?_, by decide, by decide, by decide, by decide⟩
  · rw [havg]
    exact Nat.div_mul_le_self _ _
  · rw [havg, Nat.add_mul, Nat.one_mul, Nat.mul_comm]
    have := Nat.lt_mul_div_succ (succeeded_durations g).sum h
    rw [Nat.mul_add, Nat.mul_one] at this
    exact this
  · rw [havg]; simp [sort_key, hgne, hany]

theorem C10_integer_floor_averages_witness :
    0 < ([⟨"getSlot", true, 100, none⟩].filter
          (fun r : TestResult => r.success)).length
    ∧ sort_key [⟨"getSlot", true, 100, none⟩]
      = (probe_summary "getSlot" [⟨"getSlot", true, 100, none⟩]).avg_duration :=
  ⟨by decide, (C10_integer_floor_averages "getSlot" _ (by decide)).2.2.1⟩

/-- C9: the progress-display toggle affects presentation only.  For every
iteration count, crash environment and fixed sequence of probe-call results,
the parallel session collected on the with-progress-bar code path and the one
collected on the no-progress code path are the same multiset (in fact the
same list), and the sequential sessions of the two code paths are identical
lists, outcome order included. -/
theorem C9_progress_toggle_presentation_only
    (calls : String → Nat → Except String TestResult)
    (healthCall : Nat → Except String TestResult)
    (iterations : Nat) (crash : Nat → Option String) :
    (↑(session_parallel calls healthCall iterations crash) : Multiset TestResult)
      = ↑(session_parallel_noPB calls healthCall iterations crash)
    ∧ session_sequential calls healthCall iterations
      = session_sequential_noPB calls healthCall iterations := by
  have hrun : run_test = run_test_noPB := rfl
  have hhealth : health_loop = health_loop_noPB := rfl
  constructor
  · simp [session_parallel, session_parallel_noPB, parallel_units,
      parallel_units_noPB, hrun, hhealth]
  · simp [session_sequential, session_sequential_noPB, hrun, hhealth]

/-- Splitting the join-point collection loop: an `Ok` unit's outcomes are
appended, a crashed (`Err`) unit contributes nothing. -/
theorem collectJoined_withCrashes_eq (crash : Nat → Option String) :
    ∀ (n : Nat) (units : List (List TestResult)),
      collectJoined (withCrashes crash n units)
        = (((units.enumFrom n).filter (fun p => (crash p.1).isNone)).map
            Prod.snd).flatten
  | _, [] => rfl
  | n, u :: us => by
    cases hc : crash n with
    | some e =>
      simp [withCrashes, collectJoined, hc,
        collectJoined_withCrashes_eq crash (n + 1) us]
    | none =>
      simp [withCrashes, collectJoined, hc,
        collectJoined_withCrashes_eq crash (n + 1) us]

/-- Length of the collected session when every unit's battery has
`iterations` outcomes: one `iterations` block per non-crashed unit. -/
theorem length_collectJoined_withCrashes (crash : Nat → Option String)
    (iterations : Nat) :
    ∀ (n : Nat) (units : List (List TestResult)),
      (∀ u ∈ units, u.length = iterations) →
      (collectJoined (withCrashes crash n units)).length
        = ((List.range units.length).filter
            (fun i => (crash (n + i)).isNone)).length * iterations
  | _, [], _ => by simp [withCrashes, collectJoined]
  | n, u :: us, hlen => by
    have hu : u.length = iterations := hlen u (by simp)
    have hus : ∀ v ∈ us, v.length = iterations :=
      fun v hv => hlen v (by simp [hv])
    have ih := length_collectJoined_withCrashes crash iterations (n + 1) us hus
    have hshift : ((List.range us.length).map Nat.succ).filter
          (fun i => (crash (n + i)).isNone)
        = ((List.range us.length).filter
            (fun i => (crash (n + 1 + i)).isNone)).map Nat.succ := by
      rw [List.filter_map]
      congr 1
      apply List.filter_congr
      intro i _
      simp only [Function.comp_apply]
      have harg : n + Nat.succ i = n + 1 + i := by omega
      rw [harg]
    cases hc : crash n with
    | some e =>
      simp only [withCrashes, collectJoined, hc, List.length_cons,
        List.range_succ_eq_map, List.filter_cons]
      rw [ih]
      simp only [Nat.add_zero, hc, Option.isNone_some, hshift]
      simp
    | none =>
      simp only [withCrashes, collectJoined, hc, List.length_cons,
        List.range_succ_eq_map, List.filter_cons, List.length_append]
      rw [ih, hu]
      simp only [Nat.add_zero, hc, Option.isNone_none, hshift]
      simp [Nat.succ_mul, Nat.add_mul, Nat.add_comm]

/-- C1 counterexample: one iteration over the 7 probes in parallel mode with
the getLatestBlockhash unit crashing (every probe call itself returning
normally).  The claim says the join point contributes exactly one synthetic
failed outcome tagged "getLatestBlockhash"; the code's join loop only prints
the join error to stderr, so the session holds zero outcomes for that probe
and only the other 6 units' outcomes. -/
theorem C1_counterexample :
    (session_parallel (fun nm _ => Except.ok ⟨nm, true, 50, none⟩)
        (fun _ => Except.ok ⟨"getHealth", true, 50, none⟩) 1
        (fun u => if u == 0 then some "task panicked" else none)).countP
        (fun r => r.name == "getLatestBlockhash") = 0
    ∧ ¬ ((session_parallel (fun nm _ => Except.ok ⟨nm, true, 50, none⟩)
        (fun _ => Except.ok ⟨"getHealth", true, 50, none⟩) 1
        (fun u => if u == 0 then some "task panicked" else none)).countP
        (fun r => r.name == "getLatestBlockhash") = 1)
    ∧ (session_parallel (fun nm _ => Except.ok ⟨nm, true, 50, none⟩)
        (fun _ => Except.ok ⟨"getHealth", true, 50, none⟩) 1
        (fun u => if u == 0 then some "task panicked" else none)).length = 6 := by
  refine ⟨by decide, by decide, by decide⟩

/-- C1 (amended): in parallel mode a concurrent unit that terminates
abnormally contributes no outcome at all to the session — its join error is
only printed to stderr — while the outcomes of every normally-returning unit
are still collected in full, in spawn order.  (Stated on both parallel code
paths.) -/
theorem C1_crashed_unit_dropped
    (calls : String → Nat → Except String TestResult)
    (healthCall : Nat → Except String TestResult)
    (iterations : Nat) (crash : Nat → Option String) :
    session_parallel calls healthCall iterations crash
      = ((((parallel_units calls healthCall iterations).enumFrom 0).filter
            (fun p => (crash p.1).isNone)).map Prod.snd).flatten
    ∧ session_parallel_noPB calls healthCall iterations crash
      = ((((parallel_units_noPB calls healthCall iterations).enumFrom 0).filter
            (fun p => (crash p.1).isNone)).map Prod.snd).flatten :=
  ⟨collectJoined_withCrashes_eq crash 0 _, collectJoined_withCrashes_eq crash 0 _⟩

/-- C2 counterexample: two iterations over the 7 probes in parallel mode with
the getSlot unit crashing.  The claim's count `7 * N = 14` fails: the crashed
unit's outcomes are silently dropped at the join point and the session holds
only 12 outcomes. -/
theorem C2_counterexample :
    (session_parallel (fun nm _ => Except.ok ⟨nm, true, 50, none⟩)
        (fun _ => Except.ok ⟨"getHealth", true, 50, none⟩) 2
        (fun u => if u == 1 then some "task panicked" else none)).length = 12
    ∧ ¬ ((session_parallel (fun nm _ => Except.ok ⟨nm, true, 50, none⟩)
        (fun _ => Except.ok ⟨"getHealth", true, 50, none⟩) 2
        (fun u => if u == 1 then some "task panicked" else none)).length
          = 7 * 2) := by
  refine ⟨by decide, by decide⟩

/-- C2 (amended): a session over the 7 registered probes with iteration count
N holds exactly one outcome per invocation of every unit that returns
normally: both sequential code paths always collect exactly `7 * N`
outcomes (invocations that fail before their own timer starts included,
converted by the Runner into failed outcomes), and the parallel code paths
collect `7 * N` when no unit crashes but lose the full battery of every
crashed unit — `(number of non-crashed units) * N` outcomes in general. -/
theorem C2_session_length
    (calls : String → Nat → Except String TestResult)
    (healthCall : Nat → Except String TestResult)
    (iterations : Nat) (crash : Nat → Option String) :
    (session_sequential calls healthCall iterations).length = 7 * iterations
    ∧ (session_sequential_noPB calls healthCall iterations).length
        = 7 * iterations
    ∧ (session_parallel calls healthCall iterations crash).length
        = ((List.range 7).filter (fun u => (crash u).isNone)).length
            * iterations
    ∧ (session_parallel_noPB calls healthCall iterations crash).length
        = ((List.range 7).filter (fun u => (crash u).isNone)).length
            * iterations := by
  have hunits : ∀ u ∈ parallel_units calls healthCall iterations,
      u.length = iterations := by
    intro u hu
    simp only [parallel_units, tests, List.map_cons, List.map_nil,
      List.mem_append, List.mem_cons, List.not_mem_nil, or_false] at hu
    rcases hu with (h | h | h | h | h | h) | h <;> subst h <;>
      first
        | exact run_test_length _ _ _
        | exact health_loop_length _ _
  have hunits2 : ∀ u ∈ parallel_units_noPB calls healthCall iterations,
      u.length = iterations := by
    intro u hu
    simp only [parallel_units_noPB, tests, List.map_cons, List.map_nil,
      List.mem_append, List.mem_cons, List.not_mem_nil, or_false] at hu
    rcases hu with (h | h | h | h | h | h) | h <;> subst h <;>
      first
        | exact run_test_length _ _ _
        | exact health_loop_length _ _
  have hlen7 : (parallel_units calls healthCall iterations).length = 7 := by
    simp [parallel_units, tests]
  have hlen7b : (parallel_units_noPB calls healthCall iterations).length = 7 := by
    simp [parallel_units_noPB, tests]
  refine ⟨?_, ?_, ?_, ?_⟩
  · simp [session_sequential, tests, run_test_length, health_loop_length]
    omega
  · have hrun : run_test = run_test_noPB := rfl
    have hhealth : health_loop = health_loop_noPB := rfl
    simp [session_sequential_noPB, tests, ← hrun, ← hhealth,
      run_test_length, health_loop_length]
    omega
  · have := length_collectJoined_withCrashes crash iterations 0
      (parallel_units calls healthCall iterations) hunits
    rw [session_parallel, this, hlen7]
    simp
  · have := length_collectJoined_withCrashes crash iterations 0
      (parallel_units_noPB calls healthCall iterations) hunits2
    rw [session_parallel_noPB, this, hlen7b]
    simp

/-- C7 counterexample: a response whose body cannot be parsed as JSON makes
`test_get_health` propagate the parse error out of the probe via `?` instead
of returning a failed outcome: the probe's result is `Err`, not a
`TestResult`. -/
theorem C7_counterexample :
    test_get_health (Except.ok (Except.error "invalid body")) 5
      = Except.error "invalid body"
    ∧ ¬ ∃ r, test_get_health (Except.ok (Except.error "invalid body")) 5
          = Except.ok r := by
  refine ⟨rfl, ?_⟩
  rintro ⟨r, hr⟩
  simpa [test_get_health] using hr

/-- C7 (amended): every probe catches every error of its underlying call
inside its own boundary and returns a failed outcome carrying a descriptive
error message — with one exception: the health probe's body-parse failure
propagates out of the probe as a raised error, and it is the Runner's
conversion (not the probe) that turns it into a failed outcome with duration
0, so no failure ever propagates past the Runner.  Conjuncts: the six
RPC-client probes and the health probe's transport-error and
parsed-response cases each return `Ok` with `error` present iff the outcome
failed; the parse failure raises; and every Runner slot holds the probe's
outcome or the converted failure. -/
theorem C7_probe_error_boundary (c : Except String Unit) (d : Nat)
    (slotCall : Except String Nat) (blockCall : Nat → Except String Unit)
    (te pe : String) (jv : JValue)
    (tf : Nat → Except String TestResult) (iterations i : Nat) (nm : String)
    (hi : i < iterations) :
    (∃ r, test_get_latest_blockhash c d = Except.ok r
      ∧ (r.error.isSome ↔ r.success = false))
    ∧ (∃ r, test_get_slot c d = Except.ok r
      ∧ (r.error.isSome ↔ r.success = false))
    ∧ (∃ r, test_get_balance c d = Except.ok r
      ∧ (r.error.isSome ↔ r.success = false))
    ∧ (∃ r, test_get_account_info c d = Except.ok r
      ∧ (r.error.isSome ↔ r.success = false))
    ∧ (∃ r, test_get_token_accounts_by_owner c d = Except.ok r
      ∧ (r.error.isSome ↔ r.success = false))
    ∧ (∃ r, test_get_block slotCall blockCall d = Except.ok r
      ∧ (r.error.isSome ↔ r.success = false))
    ∧ (test_get_health (Except.error te) d
        = Except.ok ⟨"getHealth", false, d, some te⟩)
    ∧ (∃ r, test_get_health (Except.ok (Except.ok jv)) d = Except.ok r
      ∧ (r.error.isSome ↔ r.success = false)
      ∧ (r.success = isStrOk (jIndex jv "result")))
    ∧ (test_get_health (Except.ok (Except.error pe)) d = Except.error pe)
    ∧ ((run_test tf iterations nm).get? i
        = some (match tf i with
                | .ok r => r
                | .error e => ⟨nm, false, 0, some e⟩)) := by
  refine ⟨?_, ?_, ?_, ?_, ?_, ?_, rfl, ?_, rfl, ?_⟩
  · cases c <;> exact ⟨_, rfl, by simp⟩
  · cases c <;> exact ⟨_, rfl, by simp⟩
  · cases c <;> exact ⟨_, rfl, by simp⟩
  · cases c <;> exact ⟨_, rfl, by simp⟩
  · cases c <;> exact ⟨_, rfl, by simp⟩
  · rcases slotCall with e | s
    · exact ⟨⟨"getBlock", false, 0, some ("Failed to get slot: " ++ e)⟩, rfl, by simp⟩
    · cases h : blockCall (s - 10) with
      | error e2 =>
        exact ⟨⟨"getBlock", false, d, some e2⟩, by simp [test_get_block, h], by simp⟩
      | ok v =>
        exact ⟨⟨"getBlock", true, d, none⟩, by simp [test_get_block, h], by simp⟩
  · by_cases h : isStrOk (jIndex jv "result")
    · exact ⟨⟨"getHealth", true, d, none⟩,
        by simp [test_get_health, h], by simp, by simp [h]⟩
    · exact ⟨⟨"getHealth", false, d, some ("Unexpected response: " ++ jShow jv)⟩,
        by simp [test_get_health, h], by simp, by simp_all⟩
  · simp [run_test, List.get?_eq_getElem?, List.getElem?_map,
      List.getElem?_range hi]

theorem C7_probe_error_boundary_witness :
    (0 : Nat) < 1
    ∧ (test_get_health
        (Except.ok (Except.error "expected value at line 1 column 1")) 9
        = Except.error "expected value at line 1 column 1") :=
  ⟨by decide,
    (C7_probe_error_boundary (Except.ok ()) 9 (Except.ok 42) (fun _ => Except.ok ())
      "transport error" "expected value at line 1 column 1" JValue.jnull
      (fun _ => Except.ok ⟨"getSlot", true, 1, none⟩) 1 0 "getSlot"
      (by decide)).2.2.2.2.2.2.2.2.1⟩

theorem any_perm {α : Type} {p : α → Bool} {l₁ l₂ : List α} (h : l₁.Perm l₂) :
    l₁.any p = l₂.any p := by
  cases hb : l₂.any p with
  | true =>
    obtain ⟨x, hx, hpx⟩ := List.any_eq_true.mp hb
    exact List.any_eq_true.mpr ⟨x, h.mem_iff.mpr hx, hpx⟩
  | false =>
    rw [List.any_eq_false] at hb ⊢
    exact fun x hx => hb x (h.mem_iff.mp hx)

theorem min?_perm {l₁ l₂ : List Nat} (h : l₁.Perm l₂) : l₁.min? = l₂.min? := by
  have hrefl : ∀ a : Nat, a ≤ a := fun a => Nat.le_refl a
  have hor : ∀ a b : Nat, min a b = a ∨ min a b = b := fun a b => by omega
  have hiff : ∀ a b c : Nat, a ≤ min b c ↔ a ≤ b ∧ a ≤ c := fun a b c => by omega
  cases h1 : l₁.min? with
  | none =>
    rw [List.min?_eq_none_iff] at h1
    subst h1
    rw [List.min?_eq_none_iff.mpr h.nil_eq.symm]
  | some a =>
    rw [List.min?_eq_some_iff hrefl hor hiff] at h1
    symm
    rw [List.min?_eq_some_iff hrefl hor hiff]
    exact ⟨h.mem_iff.mp h1.1, fun b hb => h1.2 b (h.mem_iff.mpr hb)⟩

theorem max?_perm {l₁ l₂ : List Nat} (h : l₁.Perm l₂) : l₁.max? = l₂.max? := by
  have hrefl : ∀ a : Nat, a ≤ a := fun a => Nat.le_refl a
  have hor : ∀ a b : Nat, max a b = a ∨ max a b = b := fun a b => by omega
  have hiff : ∀ a b c : Nat, max b c ≤ a ↔ b ≤ a ∧ c ≤ a := fun a b c => by omega
  cases h1 : l₁.max? with
  | none =>
    rw [List.max?_eq_none_iff] at h1
    subst h1
    rw [List.max?_eq_none_iff.mpr h.nil_eq.symm]
  | some a =>
    rw [List.max?_eq_some_iff hrefl hor hiff] at h1
    symm
    rw [List.max?_eq_some_iff hrefl hor hiff]
    exact ⟨h.mem_iff.mp h1.1, fun b hb => h1.2 b (h.mem_iff.mpr hb)⟩

theorem succeeded_durations_perm {s₁ s₂ : List TestResult} (h : s₁.Perm s₂) :
    (succeeded_durations s₁).Perm (succeeded_durations s₂) :=
  (h.filter _).map _

theorem successful_tests_perm {s₁ s₂ : List TestResult} (h : s₁.Perm s₂) :
    successful_tests s₁ = successful_tests s₂ :=
  (h.filter _).length_eq

theorem sort_key_perm {g₁ g₂ : List TestResult} (h : g₁.Perm g₂) :
    sort_key g₁ = sort_key g₂ := by
  have hempty : g₁.isEmpty = g₂.isEmpty := by
    cases g₁ with
    | nil => rw [h.nil_eq.symm]
    | cons a l =>
      cases g₂ with
      | nil => exact absurd h.symm.nil_eq (by simp)
      | cons b m => rfl
  have hany : g₁.any (fun r => r.success) = g₂.any (fun r => r.success) :=
    any_perm h
  have hsum : (succeeded_durations g₁).sum = (succeeded_durations g₂).sum :=
    (succeeded_durations_perm h).sum_eq
  have hlen : (g₁.filter (fun r => r.success)).length
      = (g₂.filter (fun r => r.success)).length := (h.filter _).length_eq
  unfold sort_key
  rw [hempty, hany, hsum, hlen]

theorem probe_summary_perm (nm : String) {g₁ g₂ : List TestResult}
    (h : g₁.Perm g₂) : probe_summary nm g₁ = probe_summary nm g₂ := by
  have hsum : (succeeded_durations g₁).sum = (succeeded_durations g₂).sum :=
    (succeeded_durations_perm h).sum_eq
  have hlen : (g₁.filter (fun r => r.success)).length
      = (g₂.filter (fun r => r.success)).length := (h.filter _).length_eq
  have hmin : (succeeded_durations g₁).min? = (succeeded_durations g₂).min? :=
    min?_perm (succeeded_durations_perm h)
  have hmax : (succeeded_durations g₁).max? = (succeeded_durations g₂).max? :=
    max?_perm (succeeded_durations_perm h)
  unfold probe_summary
  rw [hsum, hlen, hmin, hmax, h.length_eq]

theorem sorted_insertionSort_le {α : Type} (key : α → Nat) (l : List α) :
    (l.insertionSort (fun a b => key a ≤ key b)).Sorted
      (fun a b => key a ≤ key b) := by
  letI : IsTotal α (fun a b => key a ≤ key b) := ⟨fun a b => Nat.le_total _ _⟩
  letI : IsTrans α (fun a b => key a ≤ key b) :=
    ⟨fun _ _ _ h1 h2 => Nat.le_trans h1 h2⟩
  exact List.sorted_insertionSort _ l

theorem orderedInsert_map_compat {α β : Type} (r : β → β → Prop)
    (r2 : α → α → Prop) [DecidableRel r] [DecidableRel r2] (f : α → β)
    (hc : ∀ a b, r (f a) (f b) ↔ r2 a b) (a : α) :
    ∀ l : List α, (l.map f).orderedInsert r (f a) = (l.orderedInsert r2 a).map f
  | [] => rfl
  | b :: l => by
    simp only [List.map_cons, List.orderedInsert]
    by_cases h : r2 a b
    · rw [if_pos ((hc a b).mpr h), if_pos h, List.map_cons, List.map_cons]
    · rw [if_neg (fun hr => h ((hc a b).mp hr)), if_neg h, List.map_cons,
        orderedInsert_map_compat r r2 f hc a l]

theorem insertionSort_map_compat {α β : Type} (r : β → β → Prop)
    (r2 : α → α → Prop) [DecidableRel r] [DecidableRel r2] (f : α → β)
    (hc : ∀ a b, r (f a) (f b) ↔ r2 a b) :
    ∀ l : List α, (l.map f).insertionSort r = (l.insertionSort r2).map f
  | [] => rfl
  | a :: l => by
    simp only [List.map_cons, List.insertionSort]
    rw [insertionSort_map_compat r r2 f hc l, orderedInsert_map_compat r r2 f hc]

theorem sorted_perm_distinct_eq {α : Type} (key : α → Nat) :
    ∀ (l₁ l₂ : List α), l₁.Perm l₂
      → l₁.Sorted (fun a b => key a ≤ key b)
      → l₂.Sorted (fun a b => key a ≤ key b)
      → l₁.Pairwise (fun a b => key a ≠ key b)
      → l₁ = l₂
  | [], _, h, _, _, _ => h.nil_eq
  | a :: t₁, [], h, _, _, _ => absurd h.symm.nil_eq (by simp)
  | a :: t₁, b :: t₂, h, hs₁, hs₂, hp => by
    by_cases hab : a = b
    · subst hab
      rw [sorted_perm_distinct_eq key t₁ t₂ h.cons_inv hs₁.of_cons hs₂.of_cons
        hp.of_cons]
    · exfalso
      have ha2 : a ∈ t₂ := by
        rcases List.mem_cons.mp (h.mem_iff.mp (List.mem_cons_self a t₁)) with
          h1 | h2
        · exact absurd h1 hab
        · exact h2
      have hb2 : b ∈ t₁ := by
        rcases List.mem_cons.mp (h.mem_iff.mpr (List.mem_cons_self b t₂)) with
          h1 | h2
        · exact absurd h1.symm hab
        · exact h2
      have h1 : key a ≤ key b := List.rel_of_sorted_cons hs₁ b hb2
      have h2 : key b ≤ key a := List.rel_of_sorted_cons hs₂ a ha2
      have h3 : key a ≠ key b := (List.pairwise_cons.mp hp).1 b hb2
      omega

theorem filter_orderedInsert_key {α : Type} (key : α → Nat) (a : α) (k : Nat) :
    ∀ l : List α,
      ((l.orderedInsert (fun x y => key x ≤ key y) a).filter
          (fun x => key x == k))
        = if key a == k then a :: l.filter (fun x => key x == k)
          else l.filter (fun x => key x == k)
  | [] => by
    by_cases h : key a == k <;> simp [List.orderedInsert, List.filter, h]
  | b :: l => by
    simp only [List.orderedInsert]
    by_cases hab : key a ≤ key b
    · rw [if_pos hab]
      by_cases hk : key a == k <;> simp [List.filter, hk]
    · rw [if_neg hab]
      have ih := filter_orderedInsert_key key a k l
      by_cases hbk : (key b == k) = true
      · have h1 : key b = k := by simpa using hbk
        have hak : (key a == k) = false := by
          have h2 : key a ≠ k := by omega
          simpa using h2
        simp [List.filter_cons, hbk, ih, hak]
      · have hbk2 : (key b == k) = false := by simpa using hbk
        by_cases hk : (key a == k) = true <;>
          simp [List.filter_cons, hbk2, ih, hk]

theorem filter_insertionSort_key {α : Type} (key : α → Nat) (k : Nat) :
    ∀ l : List α,
      ((l.insertionSort (fun x y => key x ≤ key y)).filter
          (fun x => key x == k))
        = l.filter (fun x => key x == k)
  | [] => rfl
  | a :: l => by
    simp only [List.insertionSort, filter_orderedInsert_key,
      filter_insertionSort_key key k l]
    by_cases h : (key a == k) = true <;> simp [List.filter_cons, h]

/-- C5 counterexample: the ranked sort does NOT break average-duration ties
by registry order.  The grouping hash map's iteration order is arbitrary;
here the two tied groups reach the comparator in the order getSlot,
getLatestBlockhash (an admissible hash-map order, and the very order
`grouped_results` produces for the session below), and the stable sort keeps
them that way even though the registry lists getLatestBlockhash before
getSlot. -/
theorem C5_counterexample :
    sort_key [⟨"getSlot", true, 100, none⟩]
      = sort_key [⟨"getLatestBlockhash", true, 100, none⟩]
    ∧ (sorted_tests
        [("getSlot", [⟨"getSlot", true, 100, none⟩]),
         ("getLatestBlockhash", [⟨"getLatestBlockhash", true, 100, none⟩])]).map
        Prod.fst = ["getSlot", "getLatestBlockhash"]
    ∧ grouped_results
        [⟨"getSlot", true, 100, none⟩, ⟨"getLatestBlockhash", true, 100, none⟩]
      = [("getSlot", [⟨"getSlot", true, 100, none⟩]),
         ("getLatestBlockhash", [⟨"getLatestBlockhash", true, 100, none⟩])]
    ∧ List.indexOf "getLatestBlockhash" tests < List.indexOf "getSlot" tests := by
  refine ⟨by decide, by decide, by decide, by decide⟩

/-- C5 (amended): ProbeSummaries are ranked in ascending order of the sort
key (the average duration over succeeded outcomes); a probe with zero
successes gets key `u128::MAX` and therefore sorts after every probe with at
least one success (whose key is strictly below `u128::MAX` whenever its
durations are genuine `u128` values); and ties keep the relative order in
which the grouping hash map emitted the groups — an arbitrary order, not the
registry order. -/
theorem C5_ranking_order (groups : List (String × List TestResult))
    (p q : String × List TestResult) (hp : p ∈ groups) (hq : q ∈ groups)
    (hpz : p.2.any (fun r => r.success) = false ∨ p.2.isEmpty = true)
    (hqs : q.2.any (fun r => r.success) = true)
    (hqb : ∀ r ∈ q.2, r.duration_ms < U128_MAX) :
    (sorted_tests groups).Sorted (fun a b => sort_key a.2 ≤ sort_key b.2)
    ∧ (sorted_tests groups).Perm groups
    ∧ sort_key p.2 = U128_MAX
    ∧ sort_key q.2 < U128_MAX
    ∧ (∀ l₁ l₂, sorted_tests groups = l₁ ++ p :: l₂ → q ∉ l₂)
    ∧ (∀ k, (sorted_tests groups).filter (fun a => sort_key a.2 == k)
          = groups.filter (fun a => sort_key a.2 == k)) := by
  have hsorted : (sorted_tests groups).Sorted
      (fun a b => sort_key a.2 ≤ sort_key b.2) :=
    sorted_insertionSort_le (fun p => sort_key p.2) groups
  have hperm : (sorted_tests groups).Perm groups :=
    List.perm_insertionSort _ groups
  have hpkey : sort_key p.2 = U128_MAX := by
    rcases hpz with h | h
    · unfold sort_key
      rw [h]
      simp
    · unfold sort_key
      rw [h]
      simp
  have hqkey : sort_key q.2 < U128_MAX := by
    obtain ⟨r, hr, hrs⟩ := List.any_eq_true.mp hqs
    have hqne : q.2.isEmpty = false := by
      cases hq2 : q.2 with
      | nil => rw [hq2] at hr; cases hr
      | cons a l => rfl
    have hcnt : 0 < (q.2.filter (fun r => r.success)).length := by
      have : r ∈ q.2.filter (fun r => r.success) :=
        List.mem_filter.mpr ⟨hr, hrs⟩
      exact List.length_pos.mpr (List.ne_nil_of_mem this)
    have hlen : (succeeded_durations q.2).length
        = (q.2.filter (fun r => r.success)).length := by
      simp [succeeded_durations]
    have hbound : ∀ x ∈ succeeded_durations q.2, x ≤ U128_MAX - 1 := by
      intro x hx
      obtain ⟨r2, hr2, hrx⟩ := List.mem_map.mp hx
      have hr2q : r2 ∈ q.2 := List.mem_of_mem_filter hr2
      have := hqb r2 hr2q
      omega
    have hsum : (succeeded_durations q.2).sum
        ≤ (succeeded_durations q.2).length * (U128_MAX - 1) := by
      simpa [smul_eq_mul] using
        List.sum_le_card_nsmul (succeeded_durations q.2) (U128_MAX - 1) hbound
    unfold sort_key
    rw [hqne, hqs]
    simp only [Bool.not_false, Bool.true_and, if_pos]
    rw [Nat.div_lt_iff_lt_mul hcnt]
    calc (succeeded_durations q.2).sum
        ≤ (succeeded_durations q.2).length * (U128_MAX - 1) := hsum
      _ = (q.2.filter (fun r => r.success)).length * (U128_MAX - 1) := by
          rw [hlen]
      _ < U128_MAX * (q.2.filter (fun r => r.success)).length := by
          have h1 : 0 < U128_MAX := by decide
          calc (q.2.filter (fun r => r.success)).length * (U128_MAX - 1)
              < (q.2.filter (fun r => r.success)).length * U128_MAX :=
                mul_lt_mul_of_pos_left (by omega) hcnt
            _ = U128_MAX * (q.2.filter (fun r => r.success)).length :=
                Nat.mul_comm _ _
  refine ⟨hsorted, hperm, hpkey, hqkey, ?_, ?_⟩
  · intro l₁ l₂ hsplit hql₂
    have := hsplit ▸ hsorted
    rw [List.Sorted, List.pairwise_append] at this
    have hrel := (List.pairwise_cons.mp this.2.1).1 q hql₂
    rw [hpkey] at hrel
    omega
  · intro k
    exact filter_insertionSort_key (fun p => sort_key p.2) k groups

theorem C5_ranking_order_witness :
    (([⟨"getBlock", false, 0, some "boom"⟩] : List TestResult).any
        (fun r => r.success) = false ∨
      ([⟨"getBlock", false, 0, some "boom"⟩] : List TestResult).isEmpty = true)
    ∧ ([⟨"getSlot", true, 100, none⟩] : List TestResult).any
        (fun r => r.success) = true
    ∧ sort_key [⟨"getBlock", false, 0, some "boom"⟩] = U128_MAX
    ∧ sort_key [⟨"getSlot", true, 100, none⟩] < U128_MAX :=
  ⟨Or.inl (by decide), by decide,
    (C5_ranking_order
      [("getBlock", [⟨"getBlock", false, 0, some "boom"⟩]),
       ("getSlot", [⟨"getSlot", true, 100, none⟩])]
      ("getBlock", [⟨"getBlock", false, 0, some "boom"⟩])
      ("getSlot", [⟨"getSlot", true, 100, none⟩])
      (by decide) (by decide) (Or.inl (by decide)) (by decide)
      (by decide)).2.2.1,
    (C5_ranking_order
      [("getBlock", [⟨"getBlock", false, 0, some "boom"⟩]),
       ("getSlot", [⟨"getSlot", true, 100, none⟩])]
      ("getBlock", [⟨"getBlock", false, 0, some "boom"⟩])
      ("getSlot", [⟨"getSlot", true, 100, none⟩])
      (by decide) (by decide) (Or.inl (by decide)) (by decide)
      (by decide)).2.2.2.1⟩

/-- C8 counterexample: aggregation is not fully order-independent.  The two
sessions below are permutations of each other, but because their probes tie
on average duration (200 ms each) the stable ranking sort preserves the
grouping order, which follows the session: the ranked ProbeSummary lists
come out in different orders, so the computed summaries are not identical. -/
theorem C8_counterexample :
    ([⟨"getSlot", true, 200, none⟩, ⟨"getBalance", true, 200, none⟩]
        : List TestResult).Perm
      [⟨"getBalance", true, 200, none⟩, ⟨"getSlot", true, 200, none⟩]
    ∧ (ranked_summaries
        [⟨"getSlot", true, 200, none⟩, ⟨"getBalance", true, 200, none⟩]).map
        ProbeSummary.name = ["getSlot", "getBalance"]
    ∧ (ranked_summaries
        [⟨"getBalance", true, 200, none⟩, ⟨"getSlot", true, 200, none⟩]).map
        ProbeSummary.name = ["getBalance", "getSlot"]
    ∧ ranked_summaries
        [⟨"getSlot", true, 200, none⟩, ⟨"getBalance", true, 200, none⟩]
      ≠ ranked_summaries
        [⟨"getBalance", true, 200, none⟩, ⟨"getSlot", true, 200, none⟩] := by
  refine ⟨by decide, by decide, by decide, ?_⟩
  intro h
  have h2 := congrArg (List.map ProbeSummary.name) h
  rw [show (ranked_summaries
        [⟨"getSlot", true, 200, none⟩, ⟨"getBalance", true, 200, none⟩]).map
        ProbeSummary.name = ["getSlot", "getBalance"] from by decide,
    show (ranked_summaries
        [⟨"getBalance", true, 200, none⟩, ⟨"getSlot", true, 200, none⟩]).map
        ProbeSummary.name = ["getBalance", "getSlot"] from by decide] at h2
  exact absurd h2 (by decide)

/-- C8 (amended): the aggregation is a pure function of the Session's
content and is order-independent in every numeric component — total and
success counts, overall success rate, overall average and overall rating,
and every per-probe summary.  The ranked ordering of ProbeSummaries is also
permutation-invariant provided no two probe groups tie on the ranking key
(the claim fails only on ties, where the arbitrary hash-map grouping order
decides). -/
theorem C8_aggregation_order_independent (s₁ s₂ : List TestResult)
    (hperm : s₁.Perm s₂) :
    s₁.length = s₂.length
    ∧ successful_tests s₁ = successful_tests s₂
    ∧ overall_success_rate s₁ = overall_success_rate s₂
    ∧ overall_avg_duration s₁ = overall_avg_duration s₂
    ∧ overall_speed_rating s₁ = overall_speed_rating s₂
    ∧ (∀ n, probe_summary n (s₁.filter (fun r => r.name == n))
          = probe_summary n (s₂.filter (fun r => r.name == n)))
    ∧ ((grouped_results s₁).Pairwise (fun a b => sort_key a.2 ≠ sort_key b.2)
        → ranked_summaries s₁ = ranked_summaries s₂) := by
  have hlen : s₁.length = s₂.length := hperm.length_eq
  have hsucc : successful_tests s₁ = successful_tests s₂ :=
    successful_tests_perm hperm
  have hsum : (succeeded_durations s₁).sum = (succeeded_durations s₂).sum :=
    (succeeded_durations_perm hperm).sum_eq
  have havg : overall_avg_duration s₁ = overall_avg_duration s₂ := by
    unfold overall_avg_duration
    rw [hsucc, hsum]
  have hPS : ∀ n, probe_summary n (s₁.filter (fun r => r.name == n))
      = probe_summary n (s₂.filter (fun r => r.name == n)) :=
    fun n => probe_summary_perm n (hperm.filter _)
  have hk : ∀ n, sort_key (s₂.filter (fun r => r.name == n))
      = sort_key (s₁.filter (fun r => r.name == n)) :=
    fun n => (sort_key_perm (hperm.filter _)).symm
  have hnames : ((s₁.map (fun r => r.name)).dedup).Perm
      ((s₂.map (fun r => r.name)).dedup) :=
    (hperm.map (fun r => r.name)).dedup
  have hranked : (grouped_results s₁).Pairwise
      (fun a b => sort_key a.2 ≠ sort_key b.2)
      → ranked_summaries s₁ = ranked_summaries s₂ := by
    intro hkeys
    unfold ranked_summaries sorted_tests grouped_results
    rw [insertionSort_map_compat
        (fun a b => sort_key a.2 ≤ sort_key b.2)
        (fun n m => sort_key (s₁.filter (fun r => r.name == n))
          ≤ sort_key (s₁.filter (fun r => r.name == m)))
        (fun n => (n, s₁.filter (fun r => r.name == n)))
        (fun a b => Iff.rfl) ((s₁.map (fun r => r.name)).dedup),
      insertionSort_map_compat
        (fun a b => sort_key a.2 ≤ sort_key b.2)
        (fun n m => sort_key (s₂.filter (fun r => r.name == n))
          ≤ sort_key (s₂.filter (fun r => r.name == m)))
        (fun n => (n, s₂.filter (fun r => r.name == n)))
        (fun a b => Iff.rfl) ((s₂.map (fun r => r.name)).dedup),
      List.map_map, List.map_map]
    have hpair1 : ((s₁.map (fun r => r.name)).dedup).Pairwise
        (fun a b => sort_key (s₁.filter (fun r => r.name == a))
          ≠ sort_key (s₁.filter (fun r => r.name == b))) := by
      have := List.pairwise_map.mp hkeys
      exact this
    have hsorteq :
        ((s₁.map (fun r => r.name)).dedup).insertionSort
          (fun n m => sort_key (s₁.filter (fun r => r.name == n))
            ≤ sort_key (s₁.filter (fun r => r.name == m)))
        = ((s₂.map (fun r => r.name)).dedup).insertionSort
          (fun n m => sort_key (s₂.filter (fun r => r.name == n))
            ≤ sort_key (s₂.filter (fun r => r.name == m))) := by
      apply sorted_perm_distinct_eq
        (fun n => sort_key (s₁.filter (fun r => r.name == n)))
      · exact ((List.perm_insertionSort _ _).trans hnames).trans
          (List.perm_insertionSort _ _).symm
      · exact sorted_insertionSort_le
          (fun n => sort_key (s₁.filter (fun r => r.name == n))) _
      · have h2 := sorted_insertionSort_le
          (fun n => sort_key (s₂.filter (fun r => r.name == n)))
          ((s₂.map (fun r => r.name)).dedup)
        exact h2.imp (fun {a b} hab => by
          simpa [hk a, hk b] using hab)
      · exact ((List.perm_insertionSort _ _).pairwise_iff
          (fun {x y} hxy => Ne.symm hxy)).mpr hpair1
    rw [hsorteq]
    apply List.map_congr_left
    intro n _
    simp only [Function.comp]
    exact hPS n
  refine ⟨hlen, hsucc, ?_, havg, ?_, hPS, hranked⟩
  · unfold overall_success_rate
    rw [hsucc, hlen]
  · unfold overall_speed_rating
    rw [havg]

theorem C8_aggregation_order_independent_witness :
    ([⟨"getSlot", true, 100, none⟩, ⟨"getBalance", true, 300, none⟩]
        : List TestResult).Perm
      [⟨"getBalance", true, 300, none⟩, ⟨"getSlot", true, 100, none⟩]
    ∧ (grouped_results
        [⟨"getSlot", true, 100, none⟩, ⟨"getBalance", true, 300, none⟩]).Pairwise
        (fun a b => sort_key a.2 ≠ sort_key b.2)
    ∧ ranked_summaries
        [⟨"getSlot", true, 100, none⟩, ⟨"getBalance", true, 300, none⟩]
      = ranked_summaries
        [⟨"getBalance", true, 300, none⟩, ⟨"getSlot", true, 100, none⟩] :=
  ⟨by decide, by decide,
    (C8_aggregation_order_independent _ _ (by decide)).2.2.2.2.2.2 (by decide)⟩
